import Mathlib

/-!
Verification development for the `go-utilities` repository: a shallow
embedding of the `constants`, `config` and `logger` packages, together with
theorems settling the specification claims about them.

Conventions of the embedding:
* Go strings are Lean `String`s.
* The process environment (`os.Getenv` / `os.Setenv`) is a total function
  `String → String`, with `""` standing for "unset or empty" exactly as
  `os.Getenv` reports it.
* Go maps that the code only reads/extends are association lists
  (`List (String × _)`); Go map assignment `m[k] = v` is `setField`/`setEnv`.
* Fallible operations return `Option`/pairs with an error component; error
  wrapping (`errors.Wrap(err, msg)`) is string prefixing with `msg ++ ": "`.
-/

namespace GoUtilities

/-! ## constants package (src/constants, logger-constants) -/

namespace Constants

def APP_DEBUG : String := "APP_DEBUG"

def APP_LOG_LEVEL : String := "APP_LOG_LEVEL"

def APP_ENV : String := "APP_ENV"

def APP_PORT : String := "APP_PORT"

def APP_DB_SECRET_NAME : String := "APP_DB_SECRET_NAME"

def TruthyValues : List String :=
  ["1", "t", "T", "TRUE", "true", "True", "0", "f", "F", "FALSE"]

def LOG_LEVEL_ERROR : String := "error"

def LOG_LEVEL_WARN : String := "warn"

def LOG_LEVEL_INFO : String := "info"

def LOG_LEVEL_DEBUG : String := "debug"

end Constants

/-! ## config package (the `config` source file) -/

namespace Config

/-- An ozzo `validation.Rule`: a capability with one method
`Validate(value) → error-or-nil`.  `none` means the rule passes,
`some msg` is the failure message of the returned error. -/
def Rule : Type := String → Option String

/-- `Variable` represents a single configuration item (struct `Variable`). -/
structure Variable where
  Value : String
  DefaultValue : String
  Description : String
  Rules : List (String × Rule)

/-- `AppConfig` owns the map from variable name to `Variable`
(field `vars map[string]*Variable`, embedded as an association list whose
keys are unique — the Go map invariant). -/
structure AppConfig where
  vars : List (String × Variable)

/-- `NewConfig(defaults)`: `conf.vars = make(...); if defaults != nil
{ conf.vars = defaults }`.  `none` embeds the Go `nil` map. -/
def NewConfig : Option (List (String × Variable)) → AppConfig
  | none => ⟨[]⟩
  | some d => ⟨d⟩

/-- `Lookup(name)`: the named Variable's value and `true`, or `("", false)`. -/
def Lookup (c : AppConfig) (name : String) : String × Bool :=
  match c.vars.lookup name with
  | some v => (v.Value, true)
  | none => ("", false)

/-- `Get(name)`: `val, _ := appConf.Lookup(name); return val`. -/
def Get (c : AppConfig) (name : String) : String :=
  (Lookup c name).1

/-! ### Environment and env-file loading -/

/-- The process environment as seen through `os.Getenv`. -/
def Env : Type := String → String

/-- `os.Setenv k v` as a functional update. -/
def setEnv (k v : String) (e : Env) : Env :=
  fun q => if q = k then v else e q

/-- One parsed env file: its key/value pairs in file order. -/
abbrev EnvFile : Type := List (String × String)

/-- The outcome of reading one env file passed to `godotenv.Overload`:
either its parsed pairs or the read/parse error message. -/
inductive FileInput where
  | ok : EnvFile → FileInput
  | loadFailed : String → FileInput

/-- Setting each pair of one env file into the environment, in file order
(what `godotenv` does for a single file under `Overload`, where the file's
values overwrite pre-existing environment values). -/
def applyFile (e : Env) (f : EnvFile) : Env :=
  f.foldl (fun acc p => setEnv p.1 p.2 acc) e

/-- `godotenv.Overload(envfiles...)`: files are loaded in order, each
overwriting the ambient environment; on the first failing file the error is
returned (files already loaded stay applied).  Result: the (possibly
partially) updated environment and the error message, if any. -/
def overload (e : Env) : List FileInput → Env × Option String
  | [] => (e, none)
  | .ok f :: rest => overload (applyFile e f) rest
  | .loadFailed msg :: _ => (e, some msg)

/-- The body of the resolution loop of `loadEnv` for one variable:
`Value = DefaultValue; if val := os.Getenv(key); val != "" { Value = val }`. -/
def resolveVar (e : Env) (k : String) (v : Variable) : Variable :=
  let v1 := { v with Value := v.DefaultValue }
  if e k ≠ "" then { v1 with Value := e k } else v1

/-- `loadEnv(envfiles...)`: overload the environment with the env files
(wrapping a failure as `"Failed to overload variables with envfile(s): _"`,
leaving the store untouched), then resolve every registered variable. -/
def loadEnv (c : AppConfig) (e : Env) (files : List FileInput) :
    AppConfig × Env × Option String :=
  match overload e files with
  | (e1, some msg) =>
      (c, e1, some ("Failed to overload variables with envfile(s): " ++ msg))
  | (e1, none) =>
      (⟨c.vars.map (fun kv => (kv.1, resolveVar e1 kv.1 kv.2))⟩, e1, none)

/-! ### Validation -/

/-- The failing rules of one variable: for each named rule, the error message
it produces on the variable's value, if any (inner loop of
`ValidationErrors`). -/
def variableErrors (v : Variable) : List (String × String) :=
  v.Rules.filterMap (fun r => (r.2 v.Value).map (fun msg => (r.1, msg)))

/-- `ValidationErrors()`: one entry per variable with at least one failing
rule, keyed `"<name> = <value>"`, holding that variable's failing rules.
(`validation.Errors` is embedded as an association list; `.Filter()` removes
nil entries, of which the embedding produces none.) -/
def ValidationErrors (c : AppConfig) : List (String × List (String × String)) :=
  c.vars.filterMap (fun kv =>
    let ve := variableErrors kv.2
    if ve = [] then none else some (kv.1 ++ " = " ++ kv.2.Value, ve))

/-- `Validate()`: the collected validation errors, or `none` when every rule
on every variable passes. -/
def Validate (c : AppConfig) : Option (List (String × List (String × String))) :=
  if ValidationErrors c = [] then none else some (ValidationErrors c)

/-- The error returned by `Setup`: either the wrapped load error or the
validation multi-error. -/
inductive SetupError where
  | loadFailure : String → SetupError
  | invalidConfig : List (String × List (String × String)) → SetupError

/-- `Setup(envfiles...)`: `loadEnv`, wrapping its failure as
`"Failed to set Application Configuration: _"`, then `Validate`.
Returns the updated store, the updated environment, and the error if any. -/
def Setup (c : AppConfig) (e : Env) (files : List FileInput) :
    AppConfig × Env × Option SetupError :=
  match loadEnv c e files with
  | (c1, e1, some msg) =>
      (c1, e1, some (.loadFailure ("Failed to set Application Configuration: " ++ msg)))
  | (c1, e1, none) => (c1, e1, (Validate c1).map .invalidConfig)

/-! ### Derived accessors -/

/-- Go's `strconv.ParseBool`: the exact literal sets it accepts, `none` for
the parse error on anything else. -/
def parseBool (s : String) : Option Bool :=
  if s = "1" ∨ s = "t" ∨ s = "T" ∨ s = "TRUE" ∨ s = "true" ∨ s = "True" then
    some true
  else if s = "0" ∨ s = "f" ∨ s = "F" ∨ s = "FALSE" ∨ s = "false" ∨ s = "False" then
    some false
  else
    none

/-- `IsDebug()`: `debug, _ := strconv.ParseBool(appConf.Get(APP_DEBUG))` —
the error is discarded, so an unparsable token yields `false`. -/
def IsDebug (c : AppConfig) : Bool :=
  (parseBool (Get c Constants.APP_DEBUG)).getD false

/-- The `logrus.Level` enumeration. -/
inductive Level where
  | panic | fatal | error | warn | info | debug | trace
deriving DecidableEq

/-- ASCII lowercasing of one character (what `strings.ToLower` does on the
ASCII level names `logrus.ParseLevel` deals with). -/
def lowerChar (c : Char) : Char :=
  if 'A' ≤ c ∧ c ≤ 'Z' then Char.ofNat (c.toNat + 32) else c

/-- ASCII lowercasing of a string. -/
def lowerStr (s : String) : String := String.mk (s.data.map lowerChar)

/-- `logrus.ParseLevel`: matches `strings.ToLower` of the input against the
known level names (`"warning"` is an accepted alias of `warn`), `none` for
the parse error otherwise. -/
def logrusParseLevel (s : String) : Option Level :=
  match lowerStr s with
  | "panic" => some .panic
  | "fatal" => some .fatal
  | "error" => some .error
  | "warn" => some .warn
  | "warning" => some .warn
  | "info" => some .info
  | "debug" => some .debug
  | "trace" => some .trace
  | _ => none

/-- `LogrusLogLevel()`: parse `APP_LOG_LEVEL`; on a parse error return
`logrus.InfoLevel`. -/
def LogrusLogLevel (c : AppConfig) : Level :=
  match logrusParseLevel (Get c Constants.APP_LOG_LEVEL) with
  | some l => l
  | none => .info

/-! ### Sample file generation (`CreateSampleFile`) and env-file parsing -/

/-- Lexicographic comparison of character lists by code point (what Go's
`sort.Strings` byte comparison does on the ASCII names involved). -/
def strLeChars : List Char → List Char → Bool
  | [], _ => true
  | _ :: _, [] => false
  | a :: as, b :: bs =>
    if a.toNat < b.toNat then true
    else if b.toNat < a.toNat then false
    else strLeChars as bs

/-- Lexicographic string order used by the sorting in `CreateSampleFile`
and `DumpTable`. -/
def strLe (a b : String) : Bool := strLeChars a.data b.data

instance decRelStrLe : DecidableRel (fun a b : String => strLe a b = true) :=
  fun a b => inferInstanceAs (Decidable (strLe a b = true))

instance decRelKeyLE : DecidableRel (fun a b : String × Variable => strLe a.1 b.1 = true) :=
  fun a b => inferInstanceAs (Decidable (strLe a.1 b.1 = true))

/-- The comma-joined sorted rule names of a variable (the `constraintList`
built by `CreateSampleFile` and `DumpTable`). -/
def constraintList (v : Variable) : String :=
  String.intercalate ", "
    (List.insertionSort (fun a b : String => strLe a b = true) (v.Rules.map Prod.fst))

/-- The store's entries in lexicographic key order (`CreateSampleFile`
iterates the sorted key list of the map). -/
def sampleSorted (c : AppConfig) : List (String × Variable) :=
  List.insertionSort (fun a b : String × Variable => strLe a.1 b.1 = true) c.vars

/-- One entry's description line, without its trailing newline:
`fmt.Sprintf("# Description: %s # Constraints: %s", desc, constraints)`. -/
def descLine (kv : String × Variable) : String :=
  "#" ++ (" Description: " ++ (kv.2.Description ++
    (" # Constraints: " ++ constraintList kv.2)))

/-- One entry's variable line, without its trailing newlines:
`fmt.Sprintf("%s=%s", name, default)`. -/
def dataLine (kv : String × Variable) : String :=
  kv.1 ++ "=" ++ kv.2.DefaultValue

/-- The text the per-entry loop of `CreateSampleFile` writes: for each entry
the chunk `"# Description: %s # Constraints: %s\n"` followed by the chunk
`"%s=%s\n\n"`. -/
def sampleEntriesText : List (String × Variable) → String
  | [] => ""
  | kv :: rest =>
      descLine kv ++ "\n" ++ dataLine kv ++ "\n" ++ "\n" ++ sampleEntriesText rest

/-- The full text `CreateSampleFile` writes: the header chunk
`"# Automatically created by the application from the config object\n\n"`
followed by the per-entry chunks in sorted key order. -/
def sampleFileContent (c : AppConfig) : String :=
  "# Automatically created by the application from the config object" ++ "\n" ++ "\n" ++
  sampleEntriesText (sampleSorted c)

/-- Splitting a character stream at `'\n'` into its lines (what a line-based
env-file reader does to the written file; a value containing `'\n'` really
does continue on the next file line). -/
def splitLinesChars : List Char → List (List Char)
  | [] => [[]]
  | ch :: rest =>
    if ch = '\n' then [] :: splitLinesChars rest
    else
      match splitLinesChars rest with
      | [] => [[ch]]
      | l :: ls => (ch :: l) :: ls

/-- The lines of a file's text. -/
def splitLines (s : String) : List String :=
  (splitLinesChars s.data).map String.mk

/-- Split a character list at the first `'='`. -/
def splitFirstEq : List Char → Option (List Char × List Char)
  | [] => none
  | ch :: rest =>
    if ch = '=' then some ([], rest)
    else
      match splitFirstEq rest with
      | some kv => some (ch :: kv.1, kv.2)
      | none => none

/-- One line of an env file as key/value characters: empty lines and `#`
comment lines yield nothing, any other line splits at its first `'='`. -/
def parseLineChars : List Char → Option (List Char × List Char)
  | [] => none
  | ch :: rest => if ch = '#' then none else splitFirstEq (ch :: rest)

/-- Modelled from the spec: the env-file syntax `godotenv` reads back — the
`godotenv` library is not part of this repository; the spec fixes the
format as `KEY=VALUE` lines, one per variable, standard `.env` convention
(so `#` comment lines and blank lines carry no binding). -/
def parseEnvLine (line : String) : Option (String × String) :=
  (parseLineChars line.data).map (fun p => (String.mk p.1, String.mk p.2))

/-- Modelled from the spec: parsing a whole env file (as its list of lines)
into the key/value pairs `godotenv` would set. -/
def parseEnvFile (lines : List String) : EnvFile :=
  lines.filterMap parseEnvLine

/-- The value the env files as a whole supply for a key: the last binding of
the key in the last file that binds it (the binding `godotenv.Overload`
leaves in the environment). -/
def filesValue : List FileInput → String → Option String
  | [], _ => none
  | .ok f :: rest, k => (filesValue rest k).orElse (fun _ => f.reverse.lookup k)
  | .loadFailed _ :: rest, k => filesValue rest k

/-! ### Concrete stores used as witnesses -/

/-- A registered port variable with no rules, for witness stores. -/
def portVar : Variable :=
  { Value := "8080", DefaultValue := "8080"
    Description := "TCP/IP Port where the application listens", Rules := [] }

/-- A store registering only `APP_PORT`. -/
def portStore : AppConfig := ⟨[(Constants.APP_PORT, portVar)]⟩

/-- A store whose `APP_DEBUG` resolved to the given token. -/
def debugStore (tok : String) : AppConfig :=
  ⟨[(Constants.APP_DEBUG,
     { Value := tok, DefaultValue := "true", Description := "Debug mode", Rules := [] })]⟩

/-- A store whose `APP_LOG_LEVEL` resolved to the given token. -/
def levelStore (tok : String) : AppConfig :=
  ⟨[(Constants.APP_LOG_LEVEL,
     { Value := tok, DefaultValue := "debug", Description := "Level of logging", Rules := [] })]⟩

/-- The variable of the C1 counterexample: default `"d"`. -/
def c1CxVar : Variable :=
  { Value := "", DefaultValue := "d", Description := "", Rules := [] }

/-- The store of the C1 counterexample: `K` registered with default `"d"`. -/
def c1CxStore : AppConfig := ⟨[("K", c1CxVar)]⟩

/-- The ambient environment of the C1 counterexample: `K` set to `"E"`. -/
def c1CxEnv : Env := fun k => if k = "K" then "E" else ""

/-- The override file of the C1 counterexample: it supplies the value `""`
for `K`. -/
def c1CxFiles : List FileInput := [FileInput.ok [("K", "")]]

/-- The store of the C1 witness: defaults for `A`, `B`, `C`. -/
def c1WitStore : AppConfig := ⟨[("A", c1CxVar), ("B", c1CxVar), ("C", c1CxVar)]⟩

/-- The ambient environment of the C1 witness. -/
def c1WitEnv : Env := fun k => if k = "A" then "envA" else if k = "B" then "envB" else ""

/-- The override file of the C1 witness: it supplies `A = "fileA"`. -/
def c1WitFiles : List FileInput := [FileInput.ok [("A", "fileA")]]

/-- The ozzo `validation.Required` rule on strings: fails with
`"cannot be blank"` on the empty string. -/
def requiredRule : Rule := fun s => if s = "" then some "cannot be blank" else none

/-- The store of the C2 counterexample: the registered names `"A"` and
`"A=B"` (a legal Go map key), with defaults `"x"` and `"d"`. -/
def c2CxStore : AppConfig :=
  ⟨[("A", { Value := "", DefaultValue := "x", Description := "", Rules := [] }),
    ("A=B", { Value := "", DefaultValue := "d", Description := "", Rules := [] })]⟩

/-- The store of the C2 witness: two variables with defaults `8080` and
`debug`, one carrying a `Required` rule. -/
def c2WitStore : AppConfig :=
  ⟨[(Constants.APP_PORT,
     { Value := "", DefaultValue := "8080",
       Description := "TCP/IP Port where the application listens",
       Rules := [("Required", requiredRule)] }),
    (Constants.APP_LOG_LEVEL,
     { Value := "", DefaultValue := "debug", Description := "Level of logging",
       Rules := [] })]⟩

/-- A variable named rule set `{Required}` whose resolved value is empty. -/
def blankVar : Variable :=
  { Value := "", DefaultValue := "", Description := "", Rules := [("Required", requiredRule)] }

/-- The failing store of the C3 witness: `NAME` is empty but required. -/
def blankStore : AppConfig := ⟨[("NAME", blankVar)]⟩

/-- A variable with a passing `Required` rule. -/
def filledVar : Variable :=
  { Value := "x", DefaultValue := "x", Description := "", Rules := [("Required", requiredRule)] }

/-- The passing store of the C3 witness. -/
def filledStore : AppConfig := ⟨[("NAME", filledVar)]⟩

/-- A schema entry whose caller pre-populated the `Value` field. -/
def prePopulatedVar : Variable :=
  { Value := "pre", DefaultValue := "d", Description := "", Rules := [] }

end Config

/-! ## logger package (the `logger` source file) -/

namespace LoggerPkg

/-- A `logrus.Fields` value (`interface{}` restricted to the scalar kinds
the repository's tests exercise: strings, numbers, booleans). -/
inductive FVal where
  | str : String → FVal
  | num : Int → FVal
  | boolean : Bool → FVal
deriving DecidableEq

/-- A `logrus.Fields` map, as an association list with unique keys. -/
abbrev Fields : Type := List (String × FVal)

/-- Go map assignment `m[k] = v`: replace the key's binding in place, or
append a new binding. -/
def setField : Fields → String → FVal → Fields
  | [], k, v => [(k, v)]
  | (k1, v1) :: rest, k, v =>
      if k1 = k then (k, v) :: rest else (k1, v1) :: setField rest k v

/-- A `pkg/errors`-style Go error value: its `Error()` message, what
`errors.Unwrap` yields (`none` when there is no unwrappable cause), and its
`fmt.Sprintf("%+v", ·)` trace-inclusive rendering (opaque to the embedding,
since it contains runtime stack frames). -/
structure GoError where
  msg : String
  cause : Option GoError
  detail : String

/-- The regexp replacement `` `\r?\n` → " --- " `` of `parseError`:
leftmost, non-overlapping, on the character list. -/
def replaceNL : List Char → List Char
  | [] => []
  | '\r' :: '\n' :: rest => ' ' :: '-' :: '-' :: '-' :: ' ' :: replaceNL rest
  | '\n' :: rest => ' ' :: '-' :: '-' :: '-' :: ' ' :: replaceNL rest
  | ch :: rest => ch :: replaceNL rest

/-- Newline sequences replaced by `" --- "`. -/
def replaceNewlines (s : String) : String := String.mk (replaceNL s.data)

/-- `strings.ReplaceAll(str, "\t", "")`: every tab character removed. -/
def removeTabs (s : String) : String :=
  String.mk (s.data.filter (fun ch => ch ≠ '\t'))

/-- The `Logger` wrapper, restricted to what `WithError` reads: the default
fields and the construction-time `formatErrors` toggle (the underlying
`logrus.FieldLogger` sink and the gorm adapter config carry no information
for these claims). -/
structure Logger where
  defaultFields : Fields
  formatErrors : Bool

/-- `parseError(err)`: `nil` → `"<nil>"`; no unwrappable cause → the error's
own message; a wrapped cause → the cause's `%+v` rendering, which — when the
format toggle is on — has newline sequences replaced by `" --- "` and tabs
removed. -/
def parseError (formatErrors : Bool) : Option GoError → String
  | none => "<nil>"
  | some e =>
    match e.cause with
    | none => e.msg
    | some cause =>
      if formatErrors then removeTabs (replaceNewlines cause.detail)
      else cause.detail

/-- The data of the entry `WithError(err)` returns:
`l.log.WithFields(l.defaultFields).WithField("error", l.parseError(err))`. -/
def WithError (l : Logger) (err : Option GoError) : Fields :=
  setField l.defaultFields "error" (.str (parseError l.formatErrors err))

/-! ### Heap model for `NewComponentLogger`

Go `logrus.Fields` maps are reference values, so the copy-vs-share claim is
about aliasing.  The heap is the list of live field maps; a logger's map is
a reference (index) into it. -/

/-- The heap of live field maps. -/
abbrev Heap : Type := List Fields

/-- Dereference a field-map reference. -/
def getMap (h : Heap) (r : Nat) : Fields := h.getD r []

/-- The copy loop of `NewComponentLogger`:
`newFields := logrus.Fields{}; for key, value := range l.defaultFields
{ newFields[key] = value }`. -/
def copyFields (f : Fields) : Fields :=
  f.foldl (fun acc kv => setField acc kv.1 kv.2) []

/-- `NewComponentLogger(componentName)`: copy the parent's field map entry
by entry into a fresh map, set `newFields["component"] = componentName`,
and allocate the result as a new map on the heap; returns the new heap and
the child's map reference. -/
def NewComponentLogger (h : Heap) (parent : Nat) (componentName : String) :
    Heap × Nat :=
  let newFields := setField (copyFields (getMap h parent)) "component" (.str componentName)
  (h ++ [newFields], h.length)

/-- Mutating one entry of an existing map on the heap (`m[k] = v` on a map
reachable through a reference). -/
def setMapField (h : Heap) (r : Nat) (k : String) (v : FVal) : Heap :=
  h.set r (setField (getMap h r) k v)

/-- The heap of the C7 counterexample: one logger whose fields already
contain a `component` entry (as every derived component logger's do —
`NewGormLogger` derives from such loggers again). -/
def c7CxHeap : Heap := [[("component", FVal.str "A")]]

/-- The heap of the C7 witness: a parent logger with a `service` field. -/
def c7WitHeap : Heap := [[("service", FVal.str "test-service")]]

/-- A logger for the C6 witness: one default field, toggle off. -/
def c6LoggerOff : Logger :=
  { defaultFields := [("service", FVal.str "svc")], formatErrors := false }

/-- A logger for the C6 witness: same fields, toggle on. -/
def c6LoggerOn : Logger :=
  { defaultFields := [("service", FVal.str "svc")], formatErrors := true }

/-- A plain (unwrappable-cause-free) error for the C6 witness. -/
def c6PlainErr : GoError :=
  { msg := "Test error", cause := none, detail := "Test error" }

/-- The inner cause of the C6 witness's wrapped error: its `%+v` rendering
has a newline, a CRLF sequence and a tab. -/
def c6InnerErr : GoError :=
  { msg := "Test Error", cause := none
    detail := "Test Error\nmain.getError\r\n\tmain.go:12" }

/-- A wrapped error for the C6 witness. -/
def c6WrappedErr : GoError :=
  { msg := "Cannot get something: Test Error"
    cause := some c6InnerErr
    detail := "wrapped detail unused" }

end LoggerPkg

namespace Config

/-! ### Helper lemmas -/

theorem lookup_eq_none_of_not_mem_keys {α : Type} (l : List (String × α)) (name : String)
    (h : name ∉ l.map Prod.fst) : l.lookup name = none := by
  induction l with
  | nil => rfl
  | cons p rest ih =>
    obtain ⟨k, v⟩ := p
    simp only [List.map_cons, List.mem_cons] at h
    push_neg at h
    have hk : (name == k) = false := by simp [h.1]
    simp [List.lookup, hk, ih h.2]

theorem lookup_append {α : Type} (l1 l2 : List (String × α)) (k : String) :
    (l1 ++ l2).lookup k = (l1.lookup k).orElse (fun _ => l2.lookup k) := by
  induction l1 with
  | nil => rfl
  | cons p rest ih =>
    obtain ⟨a, b⟩ := p
    by_cases hk : k = a
    · simp [List.lookup, hk]
    · have hk2 : (k == a) = false := by simp [hk]
      simp [List.lookup, hk2, ih]

theorem mem_of_lookup_eq_some {α : Type} {l : List (String × α)} {k : String} {b : α}
    (h : l.lookup k = some b) : (k, b) ∈ l := by
  induction l with
  | nil => simp [List.lookup] at h
  | cons p rest ih =>
    obtain ⟨a, v⟩ := p
    by_cases hk : k = a
    · subst hk
      simp [List.lookup] at h
      simp [h]
    · have hk2 : (k == a) = false := by simp [hk]
      simp only [List.lookup, hk2] at h
      exact List.mem_cons_of_mem _ (ih h)

theorem value_eq_of_nodup_keys {α : Type} {l : List (String × α)} {k : String} {x y : α}
    (hnd : (l.map Prod.fst).Nodup) (hx : (k, x) ∈ l) (hy : (k, y) ∈ l) : x = y := by
  induction l with
  | nil => cases hx
  | cons p rest ih =>
    simp only [List.map_cons, List.nodup_cons] at hnd
    rcases List.mem_cons.mp hx with hx1 | hx2 <;> rcases List.mem_cons.mp hy with hy1 | hy2
    · rw [← hx1] at hy1
      exact (Prod.mk.injEq _ _ _ _ ▸ hy1.symm).2
    · exfalso
      apply hnd.1
      rw [← hx1]
      exact List.mem_map.mpr ⟨(k, y), hy2, by simp [← hx1]⟩
    · exfalso
      apply hnd.1
      rw [← hy1]
      exact List.mem_map.mpr ⟨(k, x), hx2, by simp [← hy1]⟩
    · exact ih hnd.2 hx2 hy2

/-- `lookup` through a key-preserving map of the values. -/
theorem lookup_map_keyed {α β : Type} (f : String → α → β) (l : List (String × α))
    (k : String) (v : α) (hnd : (l.map Prod.fst).Nodup) (hmem : (k, v) ∈ l) :
    (l.map (fun kv => (kv.1, f kv.1 kv.2))).lookup k = some (f k v) := by
  induction l with
  | nil => cases hmem
  | cons p rest ih =>
    obtain ⟨a, b⟩ := p
    simp only [List.map_cons, List.nodup_cons] at hnd
    rcases List.mem_cons.mp hmem with heq | hmem2
    · obtain ⟨hk, hv⟩ := Prod.mk.injEq _ _ _ _ ▸ heq
      subst hk; subst hv
      simp [List.lookup]
    · have hka : k ≠ a := by
        rintro rfl
        exact hnd.1 (List.mem_map.mpr ⟨(k, v), hmem2, rfl⟩)
      have hk2 : (k == a) = false := by simp [hka]
      simp [List.lookup, hk2, ih hnd.2 hmem2]

theorem applyFile_apply (e : Env) (f : EnvFile) (k : String) :
    applyFile e f k = (f.reverse.lookup k).getD (e k) := by
  induction f generalizing e with
  | nil => rfl
  | cons p rest ih =>
    obtain ⟨a, b⟩ := p
    show applyFile (setEnv a b e) rest k = _
    rw [ih, List.reverse_cons, lookup_append]
    cases h : rest.reverse.lookup k with
    | some v => simp [h]
    | none =>
      by_cases hk : k = a
      · simp [h, List.lookup, hk, setEnv]
      · have hk2 : (k == a) = false := by simp [hk]
        simp [h, List.lookup, hk2, setEnv, hk]

/-- After a successful `overload`, the environment holds the last
file-supplied binding of each key, or its ambient value when no file binds
it. -/
theorem overload_ok_apply (e : Env) (files : List FileInput) (k : String)
    (h : (overload e files).2 = none) :
    (overload e files).1 k = (filesValue files k).getD (e k) := by
  induction files generalizing e with
  | nil => rfl
  | cons f rest ih =>
    cases f with
    | ok pairs =>
      show (overload (applyFile e pairs) rest).1 k = _
      rw [ih _ h, applyFile_apply]
      show _ = ((filesValue rest k).orElse fun _ => pairs.reverse.lookup k).getD (e k)
      cases hrv : filesValue rest k <;> cases hpl : pairs.reverse.lookup k <;>
        simp [hrv, hpl]
    | loadFailed msg => simp [overload] at h

/-- The `Value` the resolution loop body gives one variable. -/
theorem resolveVar_value (e : Env) (k : String) (v : Variable) :
    (resolveVar e k v).Value = if e k ≠ "" then e k else v.DefaultValue := by
  unfold resolveVar
  split <;> rfl

theorem splitFirstEq_append (xs ys : List Char) (h : '=' ∉ xs) :
    splitFirstEq (xs ++ '=' :: ys) = some (xs, ys) := by
  induction xs with
  | nil => simp [splitFirstEq]
  | cons c rest ih =>
    simp only [List.mem_cons, not_or] at h
    have hc : ¬(c = '=') := fun e => h.1 e.symm
    simp [splitFirstEq, hc, ih h.2]

theorem parseLineChars_eq_split (cs : List Char) (hne : cs ≠ [])
    (hh : cs.head? ≠ some '#') : parseLineChars cs = splitFirstEq cs := by
  cases cs with
  | nil => cases hne rfl
  | cons c r =>
    have hc : ¬(c = '#') := by
      intro e
      exact hh (by rw [e]; rfl)
    simp [parseLineChars, hc]

/-- A line starting with `'#'` carries no binding. -/
theorem parseEnvLine_hash (s : String) : parseEnvLine ("#" ++ s) = none := by
  have hd : ("#" ++ s).data = '#' :: s.data := rfl
  unfold parseEnvLine
  rw [hd]
  rfl

/-- A `KEY=VALUE` line whose key contains no `'='` parses back to exactly
that binding — unless the key starts the line with `'#'`, in which case the
line is taken as a comment and carries no binding. -/
theorem parseEnvLine_kv (k d : String) (hk : '=' ∉ k.data) :
    parseEnvLine (k ++ "=" ++ d) = some (k, d) ∨
    parseEnvLine (k ++ "=" ++ d) = none := by
  have hd : (k ++ "=" ++ d).data = k.data ++ '=' :: d.data := by
    show (k.data ++ "=".data) ++ d.data = _
    rw [List.append_assoc]
    rfl
  unfold parseEnvLine
  rw [hd]
  cases hkd : k.data with
  | nil =>
    left
    have hk0 : k = "" := congrArg String.mk hkd
    rw [hk0]
    rfl
  | cons c0 rest =>
    by_cases hc : c0 = '#'
    · right
      rw [hc]
      rfl
    · left
      have hne : (c0 :: rest) ++ '=' :: d.data ≠ [] := by simp
      have hh : ((c0 :: rest) ++ '=' :: d.data).head? ≠ some '#' := by simp [hc]
      rw [parseLineChars_eq_split _ hne hh]
      rw [splitFirstEq_append _ _ (hkd ▸ hk)]
      rw [← hkd]
      rfl

theorem splitLinesChars_cons_newline (cs : List Char) :
    splitLinesChars ('\n' :: cs) = [] :: splitLinesChars cs := by
  simp [splitLinesChars]

/-- Splitting distributes over the first newline after a newline-free
prefix. -/
theorem splitLinesChars_append (xs ys : List Char) (h : '\n' ∉ xs) :
    splitLinesChars (xs ++ '\n' :: ys) = xs :: splitLinesChars ys := by
  induction xs with
  | nil => simp [splitLinesChars]
  | cons c rest ih =>
    simp only [List.mem_cons, not_or] at h
    have hc : ¬(c = '\n') := fun e => h.1 e.symm
    have ht := ih h.2
    simp [splitLinesChars, hc, ht]

/-- The lines of the per-entry text, when each entry's description and
variable lines are newline-free: per entry its description line, its
variable line and a blank line, with a final empty fragment after the
text's last newline. -/
theorem splitLines_sampleEntriesText (l : List (String × Variable))
    (h : ∀ kv ∈ l, '\n' ∉ (descLine kv).data ∧ '\n' ∉ (dataLine kv).data) :
    splitLines (sampleEntriesText l) =
      l.flatMap (fun kv => [descLine kv, dataLine kv, ""]) ++ [""] := by
  induction l with
  | nil => rfl
  | cons kv rest ih =>
    obtain ⟨h1, h2⟩ := h kv (List.mem_cons_self _ _)
    have e1 : ∀ (s t : String), (s ++ t).data = s.data ++ t.data := fun _ _ => rfl
    have e2 : ("\n" : String).data = ['\n'] := rfl
    have hd : (sampleEntriesText (kv :: rest)).data =
        (descLine kv).data ++ '\n' ::
          ((dataLine kv).data ++ '\n' :: '\n' :: (sampleEntriesText rest).data) := by
      simp only [sampleEntriesText, e1, e2]
      simp [List.append_assoc]
    have hsplit := ih (fun kv2 hk2 => h kv2 (List.mem_cons_of_mem _ hk2))
    unfold splitLines at hsplit ⊢
    rw [hd, splitLinesChars_append _ _ h1, splitLinesChars_append _ _ h2,
        splitLinesChars_cons_newline]
    simp only [List.map_cons]
    rw [hsplit]
    rfl

/-- The lines of the whole written sample file: the header comment, a blank
line, the per-entry lines, and the final empty fragment. -/
theorem splitLines_sampleFileContent (c : AppConfig)
    (h : ∀ kv ∈ sampleSorted c, '\n' ∉ (descLine kv).data ∧ '\n' ∉ (dataLine kv).data) :
    splitLines (sampleFileContent c) =
      "# Automatically created by the application from the config object" :: "" ::
      ((sampleSorted c).flatMap (fun kv => [descLine kv, dataLine kv, ""]) ++ [""]) := by
  have e1 : ∀ (s t : String), (s ++ t).data = s.data ++ t.data := fun _ _ => rfl
  have e2 : ("\n" : String).data = ['\n'] := rfl
  have hd : (sampleFileContent c).data =
      ("# Automatically created by the application from the config object" : String).data ++
        '\n' :: ('\n' :: (sampleEntriesText (sampleSorted c)).data) := by
    simp only [sampleFileContent, e1, e2]
    simp [List.append_assoc]
  have hhdr : '\n' ∉
      ("# Automatically created by the application from the config object" : String).data := by
    decide
  have hsplit := splitLines_sampleEntriesText (sampleSorted c) h
  unfold splitLines at hsplit ⊢
  rw [hd, splitLinesChars_append _ _ hhdr, splitLinesChars_cons_newline]
  simp only [List.map_cons]
  rw [hsplit]

theorem descLine_no_newline (kv : String × Variable)
    (hD : '\n' ∉ kv.2.Description.data) (hCL : '\n' ∉ (constraintList kv.2).data) :
    '\n' ∉ (descLine kv).data := by
  have e1 : ∀ (s t : String), (s ++ t).data = s.data ++ t.data := fun _ _ => rfl
  simp only [descLine, e1, List.mem_append, not_or]
  exact ⟨by decide, by decide, hD, by decide, hCL⟩

theorem dataLine_no_newline (kv : String × Variable)
    (hN : '\n' ∉ kv.1.data) (hd : '\n' ∉ kv.2.DefaultValue.data) :
    '\n' ∉ (dataLine kv).data := by
  have e1 : ∀ (s t : String), (s ++ t).data = s.data ++ t.data := fun _ _ => rfl
  simp only [dataLine, e1, List.mem_append, not_or]
  exact ⟨⟨hN, by decide⟩, hd⟩

/-- Every binding the parsed sample file carries is some registered
variable's name paired with that variable's default value (for schemas
whose names contain no `'='` and whose lines are newline-free). -/
theorem parsed_sample_mem (c : AppConfig)
    (hk : ∀ kv ∈ c.vars, '=' ∉ kv.1.data)
    (hnl : ∀ kv ∈ c.vars, '\n' ∉ (descLine kv).data ∧ '\n' ∉ (dataLine kv).data) :
    ∀ p ∈ parseEnvFile (splitLines (sampleFileContent c)),
      ∃ kv ∈ c.vars, p = (kv.1, kv.2.DefaultValue) := by
  have hperm := List.perm_insertionSort
    (fun a b : String × Variable => strLe a.1 b.1 = true) c.vars
  have hnl2 : ∀ kv ∈ sampleSorted c,
      '\n' ∉ (descLine kv).data ∧ '\n' ∉ (dataLine kv).data :=
    fun kv hkv => hnl kv (hperm.mem_iff.mp hkv)
  intro p hp
  rw [splitLines_sampleFileContent c hnl2] at hp
  obtain ⟨line, hline, hparse⟩ := List.mem_filterMap.mp hp
  rcases List.mem_cons.mp hline with h1 | hline2
  · exfalso
    rw [h1] at hparse
    rw [show ("# Automatically created by the application from the config object" : String) =
          "#" ++ " Automatically created by the application from the config object" from rfl,
        parseEnvLine_hash] at hparse
    exact Option.noConfusion hparse
  rcases List.mem_cons.mp hline2 with h2 | hline3
  · exfalso
    rw [h2] at hparse
    exact Option.noConfusion hparse
  rcases List.mem_append.mp hline3 with hflat | htail
  · obtain ⟨kv, hkv, hin⟩ := List.mem_flatMap.mp hflat
    have hkv2 : kv ∈ c.vars := hperm.mem_iff.mp hkv
    simp only [List.mem_cons, List.not_mem_nil, or_false] at hin
    rcases hin with hdesc | hdata | hblank
    · exfalso
      rw [hdesc] at hparse
      unfold descLine at hparse
      rw [parseEnvLine_hash] at hparse
      exact Option.noConfusion hparse
    · rcases parseEnvLine_kv kv.1 kv.2.DefaultValue (hk kv hkv2) with hgood | hnone
      · rw [hdata] at hparse
        unfold dataLine at hparse
        rw [hgood] at hparse
        exact ⟨kv, hkv2, (Option.some.injEq _ _ ▸ hparse).symm⟩
      · exfalso
        rw [hdata] at hparse
        unfold dataLine at hparse
        rw [hnone] at hparse
        exact Option.noConfusion hparse
    · exfalso
      rw [hblank] at hparse
      exact Option.noConfusion hparse
  · exfalso
    rw [List.mem_singleton.mp htail] at hparse
    exact Option.noConfusion hparse

/-- On a successful load, `Setup` takes the resolve-then-validate branch. -/
theorem setup_ok (c : AppConfig) (e : Env) (files : List FileInput)
    (h : (overload e files).2 = none) :
    Setup c e files =
      (⟨c.vars.map (fun kv => (kv.1, resolveVar (overload e files).1 kv.1 kv.2))⟩,
       (overload e files).1,
       (Validate ⟨c.vars.map
          (fun kv => (kv.1, resolveVar (overload e files).1 kv.1 kv.2))⟩).map
         .invalidConfig) := by
  have hov : overload e files = ((overload e files).1, none) := by
    rw [← h]
  unfold Setup loadEnv
  rw [hov]

/-! ### Claim C1 -/

/-- C1 counterexample: an override file that supplies the (empty) value `""`
for `K`, an ambient environment with the non-empty value `"E"` for `K`, and
default `"d"`.  The claimed precedence says the file-supplied value wins, so
`K` should resolve to `""` (and certainly to the file's or the environment's
value); the code resolves `K` to the default `"d"`: `godotenv.Overload`
erases the environment value with the file's empty value, and an empty
environment value never overrides the default. -/
theorem c1_counterexample :
    filesValue c1CxFiles "K" = some "" ∧
    c1CxEnv "K" = "E" ∧
    Lookup (Setup c1CxStore c1CxEnv c1CxFiles).1 "K" = ("d", true) ∧
    ¬(("d" : String) = "" ∨ ("d" : String) = "E") := by
  refine ⟨rfl, rfl, ?_, by decide⟩
  rfl

/-- C1 (amended): after a successful `Setup`, every registered variable
resolves to the final merged environment value when that is non-empty and to
its default otherwise.  In precedence terms: a *non-empty* file-supplied
value wins; when the files supply nothing for the name, a non-empty ambient
environment value wins, otherwise the default; and when a file supplies the
*empty* value for the name, the default is used (the empty file value erases
the ambient environment value rather than winning itself — this is the one
departure from the claimed "file-supplied value always wins"). -/
theorem c1_setup_precedence_amended (c : AppConfig) (e : Env) (files : List FileInput)
    (hnd : (c.vars.map Prod.fst).Nodup) (hok : (overload e files).2 = none)
    (k : String) (v : Variable) (hmem : (k, v) ∈ c.vars) :
    (Lookup (Setup c e files).1 k =
      ((if (overload e files).1 k ≠ "" then (overload e files).1 k else v.DefaultValue),
       true)) ∧
    (∀ fv, filesValue files k = some fv → fv ≠ "" →
      Lookup (Setup c e files).1 k = (fv, true)) ∧
    (filesValue files k = some "" →
      Lookup (Setup c e files).1 k = (v.DefaultValue, true)) ∧
    (filesValue files k = none → e k ≠ "" →
      Lookup (Setup c e files).1 k = (e k, true)) ∧
    (filesValue files k = none → e k = "" →
      Lookup (Setup c e files).1 k = (v.DefaultValue, true)) := by
  have hmain : Lookup (Setup c e files).1 k =
      ((if (overload e files).1 k ≠ "" then (overload e files).1 k else v.DefaultValue),
       true) := by
    rw [setup_ok c e files hok]
    show Lookup ⟨c.vars.map
      (fun kv => (kv.1, resolveVar (overload e files).1 kv.1 kv.2))⟩ k = _
    unfold Lookup
    rw [lookup_map_keyed (resolveVar (overload e files).1) c.vars k v hnd hmem]
    show ((resolveVar (overload e files).1 k v).Value, true) = _
    rw [resolveVar_value]
  have henv := overload_ok_apply e files k hok
  refine ⟨hmain, ?_, ?_, ?_, ?_⟩
  · intro fv hfv hne
    rw [hmain, henv, hfv]
    simp [hne]
  · intro hfv
    rw [hmain, henv, hfv]
    simp
  · intro hfv hne
    rw [hmain, henv, hfv]
    simp [hne]
  · intro hfv hemp
    rw [hmain, henv, hfv]
    simp [hemp]

/-- C1 witness: the file supplies `A = "fileA"`, the ambient environment
supplies `A = "envA"`; the non-empty file value wins. -/
theorem c1_setup_precedence_amended_witness :
    ((c1WitStore.vars.map Prod.fst).Nodup ∧
     (overload c1WitEnv c1WitFiles).2 = none ∧
     ("A", c1CxVar) ∈ c1WitStore.vars ∧
     filesValue c1WitFiles "A" = some "fileA" ∧
     ("fileA" : String) ≠ "") ∧
    Lookup (Setup c1WitStore c1WitEnv c1WitFiles).1 "A" = ("fileA", true) := by
  refine ⟨⟨by decide, rfl, ?_, rfl, by decide⟩, ?_⟩
  · exact List.mem_cons_self _ _
  · exact (c1_setup_precedence_amended c1WitStore c1WitEnv c1WitFiles (by decide) rfl
      "A" c1CxVar (List.mem_cons_self _ _)).2.1 "fileA" rfl (by decide)

/-! ### Claim C2 -/

/-- C2 counterexample: the schema registering `"A"` (default `"x"`) and
`"A=B"` (default `"d"`).  `CreateSampleFile` writes the lines `A=x` and
`A=B=d`; an env-file reader splits the latter at its *first* `'='`, so the
file binds `A` twice and the later binding wins: after the round trip `A`
resolves to `"B=d"`, not to its default `"x"`.  This refutes "for every
schema ... every registered variable resolves to exactly the defaultValue".
The ambient environment is empty, so nothing conflicts. -/
theorem c2_sample_file_roundtrip_counterexample :
    (∀ name : String, (fun _ => "" : Env) name = "") ∧
    Lookup (Setup c2CxStore (fun _ => "")
        [FileInput.ok (parseEnvFile (splitLines (sampleFileContent c2CxStore)))]).1
      "A" = ("B=d", true) ∧
    ("B=d" : String) ≠ "x" := by
  refine ⟨fun _ => rfl, ?_, by decide⟩
  decide

/-- C2 (amended): round-trip holds exactly for the schemas whose sample
file is a well-formed env file — every registered name contains no `'='`
and no newline, and defaults, descriptions and the comma-joined rule-name
lists contain no newline (otherwise a written value spills into further
file lines or a name splits at the wrong `'='`, as the counterexample
shows).  For such a schema, writing the sample file and supplying it as
the override file to `Setup`/`loadEnv` on a store with the same schema,
with no conflicting ambient environment, resolves every registered
variable to exactly the default value used to generate the file. -/
theorem c2_sample_file_roundtrip (c : AppConfig) (e : Env)
    (hnd : (c.vars.map Prod.fst).Nodup)
    (hk : ∀ kv ∈ c.vars, '=' ∉ kv.1.data)
    (hnl : ∀ kv ∈ c.vars, '\n' ∉ kv.1.data ∧ '\n' ∉ kv.2.DefaultValue.data ∧
      '\n' ∉ kv.2.Description.data ∧ '\n' ∉ (constraintList kv.2).data)
    (hamb : ∀ kv ∈ c.vars, e kv.1 = "")
    (k : String) (v : Variable) (hmem : (k, v) ∈ c.vars) :
    Lookup (Setup c e
        [FileInput.ok (parseEnvFile (splitLines (sampleFileContent c)))]).1 k =
      (v.DefaultValue, true) := by
  have hlines : ∀ kv ∈ c.vars, '\n' ∉ (descLine kv).data ∧ '\n' ∉ (dataLine kv).data :=
    fun kv hkv =>
      ⟨descLine_no_newline kv (hnl kv hkv).2.2.1 (hnl kv hkv).2.2.2,
       dataLine_no_newline kv (hnl kv hkv).1 (hnl kv hkv).2.1⟩
  have hok : (overload e
      [FileInput.ok (parseEnvFile (splitLines (sampleFileContent c)))]).2 = none := rfl
  rw [setup_ok c e _ hok]
  show Lookup ⟨c.vars.map (fun kv => (kv.1,
    resolveVar (overload e
      [FileInput.ok (parseEnvFile (splitLines (sampleFileContent c)))]).1
      kv.1 kv.2))⟩ k = _
  unfold Lookup
  rw [lookup_map_keyed _ c.vars k v hnd hmem]
  show ((resolveVar (overload e
    [FileInput.ok (parseEnvFile (splitLines (sampleFileContent c)))]).1
    k v).Value, true) = _
  rw [resolveVar_value]
  have henv : (overload e
      [FileInput.ok (parseEnvFile (splitLines (sampleFileContent c)))]).1 k =
      ((parseEnvFile (splitLines (sampleFileContent c))).reverse.lookup k).getD (e k) := by
    rw [overload_ok_apply e _ k hok]
    rfl
  rw [henv]
  cases hlk : (parseEnvFile (splitLines (sampleFileContent c))).reverse.lookup k with
  | none =>
    rw [Option.getD_none, hamb (k, v) hmem]
    rfl
  | some val =>
    have hval : val = v.DefaultValue := by
      have hmemrev : (k, val) ∈ (parseEnvFile (splitLines (sampleFileContent c))).reverse :=
        mem_of_lookup_eq_some hlk
      have hmemp : (k, val) ∈ parseEnvFile (splitLines (sampleFileContent c)) :=
        List.mem_reverse.mp hmemrev
      obtain ⟨kv2, hkv2, heq⟩ := parsed_sample_mem c hk hlines (k, val) hmemp
      obtain ⟨hk2, hv2⟩ := Prod.mk.injEq _ _ _ _ ▸ heq
      have hsame : kv2.2 = v := by
        apply value_eq_of_nodup_keys hnd _ hmem
        rw [hk2]
        exact (Prod.mk.eta (p := kv2)) ▸ hkv2
      rw [hv2, hsame]
    rw [hval, Option.getD_some]
    by_cases hdef : v.DefaultValue = "" <;> simp [hdef]

/-- C2 witness: the sample file of `c2WitStore` (well-formed names, defaults,
descriptions and rule names), loaded back over an empty environment,
resolves `APP_PORT` to its default `"8080"`. -/
theorem c2_sample_file_roundtrip_witness :
    ((c2WitStore.vars.map Prod.fst).Nodup ∧
     (∀ kv ∈ c2WitStore.vars, '=' ∉ kv.1.data) ∧
     (∀ kv ∈ c2WitStore.vars, '\n' ∉ kv.1.data ∧ '\n' ∉ kv.2.DefaultValue.data ∧
       '\n' ∉ kv.2.Description.data ∧ '\n' ∉ (constraintList kv.2).data) ∧
     (∀ kv ∈ c2WitStore.vars, (fun _ => "" : Env) kv.1 = "")) ∧
    Lookup (Setup c2WitStore (fun _ => "")
        [FileInput.ok (parseEnvFile (splitLines (sampleFileContent c2WitStore)))]).1
      Constants.APP_PORT = ("8080", true) := by
  refine ⟨⟨by decide, by decide, by decide, fun kv _ => rfl⟩, ?_⟩
  exact c2_sample_file_roundtrip c2WitStore (fun _ => "") (by decide) (by decide)
    (by decide) (fun kv _ => rfl) Constants.APP_PORT _ (List.mem_cons_self _ _)

/-! ### Claim C10 -/

/-- C10: when loading the override files fails, `Setup` returns the original
store together with the doubly-wrapped load error — the variables are
exactly as before the call, no defaults are applied, and the returned error
is a load failure (not a validation result, so validation did not run). -/
theorem c10_setup_atomic_on_load_failure (c : AppConfig) (e : Env)
    (files : List FileInput) (msg : String)
    (h : (overload e files).2 = some msg) :
    Setup c e files =
      (c, (overload e files).1,
       some (SetupError.loadFailure
         ("Failed to set Application Configuration: " ++
          ("Failed to overload variables with envfile(s): " ++ msg)))) := by
  have hov : overload e files = ((overload e files).1, some msg) := by
    rw [← h]
  unfold Setup loadEnv
  rw [hov]

/-- C10 witness: a store with one registered variable and a single failing
override file. -/
theorem c10_setup_atomic_on_load_failure_witness :
    (overload c1CxEnv [FileInput.loadFailed "open AfileThatDoesNotExists: no such file or directory"]).2 =
      some "open AfileThatDoesNotExists: no such file or directory" ∧
    Setup c1CxStore c1CxEnv
        [FileInput.loadFailed "open AfileThatDoesNotExists: no such file or directory"] =
      (c1CxStore,
       (overload c1CxEnv
         [FileInput.loadFailed "open AfileThatDoesNotExists: no such file or directory"]).1,
       some (SetupError.loadFailure
         ("Failed to set Application Configuration: " ++
          ("Failed to overload variables with envfile(s): " ++
           "open AfileThatDoesNotExists: no such file or directory")))) :=
  ⟨rfl, c10_setup_atomic_on_load_failure c1CxStore c1CxEnv _ _ rfl⟩

/-! ### Claim C3 -/

/-- C3: `Validate` applies every named rule of every variable to its
resolved value.  If every rule on every variable passes it returns no
error; if some rule of some variable fails with some message, it returns a
structured multi-error containing an entry keyed `"<name> = <value>"` whose
map sends that failing rule's name to its message. -/
theorem c3_validate_multierror (c : AppConfig) :
    ((∀ kv ∈ c.vars, ∀ r ∈ kv.2.Rules, r.2 kv.2.Value = none) → Validate c = none) ∧
    (∀ kv ∈ c.vars, ∀ r ∈ kv.2.Rules, ∀ msg : String, r.2 kv.2.Value = some msg →
      ∃ errs, Validate c = some errs ∧
        ∃ entry ∈ errs, entry.1 = kv.1 ++ " = " ++ kv.2.Value ∧
          (r.1, msg) ∈ entry.2) := by
  constructor
  · intro h
    have hve : ValidationErrors c = [] := by
      rw [ValidationErrors, List.filterMap_eq_nil_iff]
      intro kv hkv
      have : variableErrors kv.2 = [] := by
        rw [variableErrors, List.filterMap_eq_nil_iff]
        intro r hr
        rw [h kv hkv r hr]
        rfl
      simp [this]
    simp [Validate, hve]
  · intro kv hkv r hr msg hmsg
    have hvemem : (r.1, msg) ∈ variableErrors kv.2 :=
      List.mem_filterMap.mpr ⟨r, hr, by rw [hmsg]; rfl⟩
    have hvene : variableErrors kv.2 ≠ [] := by
      intro h0
      rw [h0] at hvemem
      exact absurd hvemem (List.not_mem_nil _)
    have hentry : (kv.1 ++ " = " ++ kv.2.Value, variableErrors kv.2) ∈ ValidationErrors c :=
      List.mem_filterMap.mpr ⟨kv, hkv, by simp [hvene]⟩
    have hne : ValidationErrors c ≠ [] := List.ne_nil_of_mem hentry
    exact ⟨ValidationErrors c, by simp [Validate, hne],
      ⟨_, hentry, rfl, hvemem⟩⟩

/-- C3 witness: a `Required` rule on the empty-valued `NAME` produces a
multi-error whose entry is keyed `"NAME = "` and mentions the rule name
`Required`; the store whose rules all pass validates with no error. -/
theorem c3_validate_multierror_witness :
    (("NAME", blankVar) ∈ blankStore.vars ∧
     ("Required", requiredRule) ∈ blankVar.Rules ∧
     requiredRule blankVar.Value = some "cannot be blank") ∧
    (∃ errs, Validate blankStore = some errs ∧
      ∃ entry ∈ errs, entry.1 = "NAME" ++ " = " ++ blankVar.Value ∧
        ("Required", "cannot be blank") ∈ entry.2) ∧
    Validate filledStore = none := by
  refine ⟨⟨List.mem_singleton.mpr rfl, List.mem_singleton.mpr rfl, rfl⟩, ?_, ?_⟩
  · exact (c3_validate_multierror blankStore).2 ("NAME", blankVar)
      (List.mem_singleton.mpr rfl) ("Required", requiredRule)
      (List.mem_singleton.mpr rfl) "cannot be blank" rfl
  · refine (c3_validate_multierror filledStore).1 ?_
    intro kv hkv r hr
    have hkv2 : kv = ("NAME", filledVar) := List.mem_singleton.mp hkv
    subst hkv2
    have hr2 : r = ("Required", requiredRule) := List.mem_singleton.mp hr
    subst hr2
    rfl

/-! ### Claim C4 -/

/-- C4: for every name not registered in the store, `Lookup` returns
`("", false)` (and no error is possible — `Lookup` is total); `Get` on that
name returns the empty string; and for every name whatsoever, `Get` equals
the value component of `Lookup`. -/
theorem c4_lookup_get_unregistered (c : AppConfig) (name : String)
    (h : name ∉ c.vars.map Prod.fst) :
    Lookup c name = ("", false) ∧ Get c name = "" ∧
    ∀ m : String, Get c m = (Lookup c m).1 := by
  have hl : Lookup c name = ("", false) := by
    simp [Lookup, lookup_eq_none_of_not_mem_keys _ _ h]
  exact ⟨hl, by simp [Get, hl], fun m => rfl⟩

/-- C4 witness: the unregistered name `"Som-var-which-is-not-set"` on a store
registering only `APP_PORT`. -/
theorem c4_lookup_get_unregistered_witness :
    "Som-var-which-is-not-set" ∉ portStore.vars.map Prod.fst ∧
    Lookup portStore "Som-var-which-is-not-set" = ("", false) ∧
    Get portStore "Som-var-which-is-not-set" = "" ∧
    ∀ m : String, Get portStore m = (Lookup portStore m).1 := by
  have h : "Som-var-which-is-not-set" ∉ portStore.vars.map Prod.fst := by decide
  exact ⟨h, c4_lookup_get_unregistered portStore _ h⟩

/-! ### Claim C5 -/

/-- C5: every token in `{1,t,T,TRUE,true,True}` makes `IsDebug` true, every
token in `{0,f,F,FALSE}` makes it false, and the matching is on directly
equal string literals, not arbitrary case folding: the case-folded-but-not-
literal token `"tRuE"` yields false. -/
theorem c5_isDebug_truthy (c : AppConfig) :
    (Get c Constants.APP_DEBUG ∈ (["1", "t", "T", "TRUE", "true", "True"] : List String) →
      IsDebug c = true) ∧
    (Get c Constants.APP_DEBUG ∈ (["0", "f", "F", "FALSE"] : List String) →
      IsDebug c = false) ∧
    (Get c Constants.APP_DEBUG = "tRuE" → IsDebug c = false) := by
  refine ⟨fun h => ?_, fun h => ?_, fun h => ?_⟩
  · simp only [List.mem_cons, List.not_mem_nil, or_false] at h
    rcases h with h | h | h | h | h | h <;> simp [IsDebug, parseBool, h]
  · simp only [List.mem_cons, List.not_mem_nil, or_false] at h
    rcases h with h | h | h | h <;> simp [IsDebug, parseBool, h]
  · simp [IsDebug, parseBool, h]

/-- C5 witness: concrete stores carrying the tokens `"True"`, `"0"` and
`"tRuE"`. -/
theorem c5_isDebug_truthy_witness :
    (Get (debugStore "True") Constants.APP_DEBUG ∈
      (["1", "t", "T", "TRUE", "true", "True"] : List String) ∧
      IsDebug (debugStore "True") = true) ∧
    (Get (debugStore "0") Constants.APP_DEBUG ∈ (["0", "f", "F", "FALSE"] : List String) ∧
      IsDebug (debugStore "0") = false) ∧
    (Get (debugStore "tRuE") Constants.APP_DEBUG = "tRuE" ∧
      IsDebug (debugStore "tRuE") = false) :=
  ⟨⟨by decide, (c5_isDebug_truthy (debugStore "True")).1 (by decide)⟩,
   ⟨by decide, (c5_isDebug_truthy (debugStore "0")).2.1 (by decide)⟩,
   ⟨by decide, (c5_isDebug_truthy (debugStore "tRuE")).2.2 (by decide)⟩⟩

/-! ### Claim C8 -/

/-- C8: `LogrusLogLevel` never errors: when the resolved `APP_LOG_LEVEL`
string parses as a known level it returns that level, and otherwise it
returns the info level. -/
theorem c8_logrusLogLevel_total (c : AppConfig) :
    (∀ l : Level, logrusParseLevel (Get c Constants.APP_LOG_LEVEL) = some l →
      LogrusLogLevel c = l) ∧
    (logrusParseLevel (Get c Constants.APP_LOG_LEVEL) = none →
      LogrusLogLevel c = Level.info) := by
  constructor
  · intro l h
    simp [LogrusLogLevel, h]
  · intro h
    simp [LogrusLogLevel, h]

/-- C8 witness: the parsable (case-insensitive) token `"WaRn"` and the
unparsable token `"kernel_panic"`. -/
theorem c8_logrusLogLevel_total_witness :
    (logrusParseLevel (Get (levelStore "WaRn") Constants.APP_LOG_LEVEL) = some Level.warn ∧
      LogrusLogLevel (levelStore "WaRn") = Level.warn) ∧
    (logrusParseLevel (Get (levelStore "kernel_panic") Constants.APP_LOG_LEVEL) = none ∧
      LogrusLogLevel (levelStore "kernel_panic") = Level.info) :=
  ⟨⟨by decide, (c8_logrusLogLevel_total (levelStore "WaRn")).1 Level.warn (by decide)⟩,
   ⟨by decide, (c8_logrusLogLevel_total (levelStore "kernel_panic")).2 (by decide)⟩⟩

/-! ### Claim C9 -/

/-- C9 counterexample: `NewConfig` stores the supplied map as-is, so a
schema entry whose caller pre-populated `Value := "pre"` is *not* reset to
the empty string: `Lookup` returns `"pre"` before any resolution runs,
refuting "its value is the empty string ... regardless of any value field
the caller pre-populated in the schema". -/
theorem c9_newConfig_counterexample :
    Lookup (NewConfig (some [("K", prePopulatedVar)])) "K" = ("pre", true) ∧
    ("pre" : String) ≠ "" := by
  constructor
  · decide
  · decide

/-- C9 (amended): `NewConfig` returns a store holding exactly the supplied
schema — each variable's value is whatever the schema supplied (empty in the
contractual case where the caller leaves `Value` unset) — and a nil schema
yields a store with no registered variables, on which every lookup returns
`("", false)`. -/
theorem c9_newConfig_amended (d : List (String × Variable)) :
    (NewConfig (some d)).vars = d ∧
    (NewConfig none).vars = [] ∧
    ∀ name : String, Lookup (NewConfig none) name = ("", false) :=
  ⟨rfl, rfl, fun _ => rfl⟩

end Config


namespace LoggerPkg

/-! ### Helper lemmas for field maps and the heap -/

theorem lookup_setField_self (f : Fields) (k : String) (v : FVal) :
    (setField f k v).lookup k = some v := by
  induction f with
  | nil => simp [setField, List.lookup]
  | cons p rest ih =>
    obtain ⟨k1, v1⟩ := p
    by_cases h : k1 = k
    · simp [setField, h, List.lookup]
    · have h2 : (k == k1) = false := by simp [Ne.symm h]
      simp [setField, h, List.lookup, h2, ih]

theorem lookup_setField_ne (f : Fields) (k q : String) (v : FVal) (h : q ≠ k) :
    (setField f k v).lookup q = f.lookup q := by
  induction f with
  | nil =>
    have h2 : (q == k) = false := by simp [h]
    simp [setField, List.lookup, h2]
  | cons p rest ih =>
    obtain ⟨k1, v1⟩ := p
    by_cases h1 : k1 = k
    · subst h1
      have h2 : (q == k1) = false := by simp [h]
      simp [setField, List.lookup, h2]
    · by_cases h2 : q = k1
      · simp [setField, h1, List.lookup, h2]
      · have h3 : (q == k1) = false := by simp [h2]
        simp [setField, h1, List.lookup, h3, ih]

theorem setField_append_of_not_mem (f : Fields) (k : String) (v : FVal)
    (h : k ∉ f.map Prod.fst) : setField f k v = f ++ [(k, v)] := by
  induction f with
  | nil => rfl
  | cons p rest ih =>
    obtain ⟨k1, v1⟩ := p
    simp only [List.map_cons, List.mem_cons] at h
    push_neg at h
    have hne : ¬(k1 = k) := fun e => h.1 e.symm
    simp [setField, hne, ih h.2]

theorem copyFields_aux (f : Fields) (hnd : (f.map Prod.fst).Nodup) :
    ∀ acc : Fields, (∀ x ∈ f.map Prod.fst, x ∉ acc.map Prod.fst) →
      f.foldl (fun a kv => setField a kv.1 kv.2) acc = acc ++ f := by
  induction f with
  | nil => intro acc _; simp
  | cons p rest ih =>
    intro acc hdisj
    obtain ⟨k1, v1⟩ := p
    simp only [List.map_cons, List.nodup_cons] at hnd
    have hk1 : k1 ∉ acc.map Prod.fst := hdisj k1 (by simp)
    show rest.foldl _ (setField acc k1 v1) = _
    rw [setField_append_of_not_mem acc k1 v1 hk1]
    rw [ih hnd.2 (acc ++ [(k1, v1)]) ?_]
    · simp
    · intro x hx
      simp only [List.map_append, List.mem_append, List.map_cons, List.map_nil,
        List.mem_singleton, not_or]
      refine ⟨hdisj x (by simp [hx]), ?_⟩
      rintro rfl
      exact hnd.1 hx

/-- With unique keys, the copy loop reproduces the map exactly. -/
theorem copyFields_eq (f : Fields) (hnd : (f.map Prod.fst).Nodup) :
    copyFields f = f := by
  have h := copyFields_aux f hnd [] (by intro x hx; simp)
  simpa [copyFields] using h

theorem getMap_append_self (h : Heap) (x : Fields) :
    getMap (h ++ [x]) h.length = x := by
  simp [getMap, List.getD]

theorem getMap_set_ne (h : Heap) (i j : Nat) (x : Fields) (hij : i ≠ j) :
    getMap (h.set i x) j = getMap h j := by
  simp [getMap, List.getD, List.getElem?_set_ne hij]

/-! ### Claim C6 -/

/-- C6: the `"error"` field `WithError(err)` attaches is: the literal
`"<nil>"` for a nil error; the error's own message when it has no
unwrappable cause; the cause's trace-inclusive `%+v` rendering when the
format toggle is off; and that rendering with newline sequences replaced by
`" --- "` and tabs removed when the toggle is on. -/
theorem c6_withError_field (l : Logger) (e cause : GoError) :
    ((WithError l none).lookup "error" = some (.str "<nil>")) ∧
    (e.cause = none →
      (WithError l (some e)).lookup "error" = some (.str e.msg)) ∧
    (e.cause = some cause → l.formatErrors = false →
      (WithError l (some e)).lookup "error" = some (.str cause.detail)) ∧
    (e.cause = some cause → l.formatErrors = true →
      (WithError l (some e)).lookup "error" =
        some (.str (removeTabs (replaceNewlines cause.detail)))) := by
  refine ⟨?_, fun h => ?_, fun h hf => ?_, fun h hf => ?_⟩
  · simp [WithError, parseError, lookup_setField_self]
  · simp [WithError, parseError, h, lookup_setField_self]
  · simp [WithError, parseError, h, hf, lookup_setField_self]
  · simp [WithError, parseError, h, hf, lookup_setField_self]

/-- C6 witness: the four cases on concrete loggers and errors, including the
concrete formatted rendering (newline and CRLF both become `" --- "`, the
tab disappears). -/
theorem c6_withError_field_witness :
    ((WithError c6LoggerOff none).lookup "error" = some (.str "<nil>")) ∧
    (c6PlainErr.cause = none ∧
      (WithError c6LoggerOff (some c6PlainErr)).lookup "error" =
        some (.str c6PlainErr.msg)) ∧
    (c6WrappedErr.cause = some c6InnerErr ∧ c6LoggerOff.formatErrors = false ∧
      (WithError c6LoggerOff (some c6WrappedErr)).lookup "error" =
        some (.str c6InnerErr.detail)) ∧
    (c6LoggerOn.formatErrors = true ∧
      (WithError c6LoggerOn (some c6WrappedErr)).lookup "error" =
        some (.str (removeTabs (replaceNewlines c6InnerErr.detail)))) ∧
    removeTabs (replaceNewlines c6InnerErr.detail) =
      "Test Error --- main.getError --- main.go:12" := by
  refine ⟨(c6_withError_field c6LoggerOff c6PlainErr c6InnerErr).1,
    ⟨rfl, (c6_withError_field c6LoggerOff c6PlainErr c6InnerErr).2.1 rfl⟩,
    ⟨rfl, rfl, (c6_withError_field c6LoggerOff c6WrappedErr c6InnerErr).2.2.1 rfl rfl⟩,
    ⟨rfl, (c6_withError_field c6LoggerOn c6WrappedErr c6InnerErr).2.2.2 rfl rfl⟩,
    by decide⟩

/-! ### Claim C7 -/

/-- C7 counterexample: a parent logger whose field map already contains a
`component` entry (every derived component logger is such a parent, and
`NewGormLogger` derives from them again).  Deriving a child overwrites the
entry instead of adding one: the child's map has the *same* number of
entries as the parent's, not one more, so the child's mapping is not "the
parent's mapping plus exactly one additional entry". -/
theorem c7_counterexample :
    ((getMap (NewComponentLogger c7CxHeap 0 "B").1
        (NewComponentLogger c7CxHeap 0 "B").2).lookup "component" =
      some (.str "B")) ∧
    ((getMap c7CxHeap 0).lookup "component" = some (.str "A")) ∧
    (getMap (NewComponentLogger c7CxHeap 0 "B").1
        (NewComponentLogger c7CxHeap 0 "B").2).length = (getMap c7CxHeap 0).length ∧
    ¬((getMap (NewComponentLogger c7CxHeap 0 "B").1
        (NewComponentLogger c7CxHeap 0 "B").2).length =
      (getMap c7CxHeap 0).length + 1) := by
  decide

/-- C7 (amended): the derived component logger's field map sends
`"component"` to the component name and agrees with the parent's map at
derivation time on every other key; when the parent's map does *not*
already contain a `component` key this is exactly one additional entry;
and the derivation copies rather than shares — mutating any entry of the
parent's map afterwards leaves the child's captured map unchanged. -/
theorem c7_component_logger_amended (h : Heap) (p : Nat) (cname : String)
    (h1 : Heap) (child : Nat)
    (hp : p < h.length) (hnd : ((getMap h p).map Prod.fst).Nodup)
    (hc : NewComponentLogger h p cname = (h1, child)) :
    ((getMap h1 child).lookup "component" = some (.str cname)) ∧
    (∀ q : String, q ≠ "component" →
      (getMap h1 child).lookup q = (getMap h p).lookup q) ∧
    ("component" ∉ (getMap h p).map Prod.fst →
      (getMap h1 child).length = (getMap h p).length + 1) ∧
    (∀ k v, getMap (setMapField h1 p k v) child = getMap h1 child) := by
  have hh1 : h1 = h ++ [setField (copyFields (getMap h p)) "component" (.str cname)] :=
    (congrArg Prod.fst hc).symm
  have hch : child = h.length := (congrArg Prod.snd hc).symm
  subst hh1
  subst hch
  have hA : getMap
      (h ++ [setField (copyFields (getMap h p)) "component" (.str cname)]) h.length =
      setField (copyFields (getMap h p)) "component" (.str cname) :=
    getMap_append_self h _
  refine ⟨?_, ?_, ?_, ?_⟩
  · rw [hA, lookup_setField_self]
  · intro q hq
    rw [hA, lookup_setField_ne _ _ _ _ hq, copyFields_eq _ hnd]
  · intro hcomp
    rw [hA, copyFields_eq _ hnd, setField_append_of_not_mem _ _ _ hcomp]
    simp
  · intro k v
    have hne : p ≠ h.length := Nat.ne_of_lt hp
    rw [setMapField]
    exact getMap_set_ne _ p h.length _ hne

/-- C7 witness: a parent with a `service` field and no `component` field,
derived with component name `"GORM"`, then the parent's map mutated. -/
theorem c7_component_logger_amended_witness :
    (0 < c7WitHeap.length ∧ ((getMap c7WitHeap 0).map Prod.fst).Nodup ∧
     "component" ∉ (getMap c7WitHeap 0).map Prod.fst) ∧
    ((getMap (NewComponentLogger c7WitHeap 0 "GORM").1
        (NewComponentLogger c7WitHeap 0 "GORM").2).lookup "component" =
      some (.str "GORM")) ∧
    (getMap (NewComponentLogger c7WitHeap 0 "GORM").1
        (NewComponentLogger c7WitHeap 0 "GORM").2).length =
      (getMap c7WitHeap 0).length + 1 ∧
    (∀ k v, getMap (setMapField (NewComponentLogger c7WitHeap 0 "GORM").1 0 k v)
        (NewComponentLogger c7WitHeap 0 "GORM").2 =
      getMap (NewComponentLogger c7WitHeap 0 "GORM").1
        (NewComponentLogger c7WitHeap 0 "GORM").2) := by
  refine ⟨⟨by decide, by decide, by decide⟩, ?_, ?_, ?_⟩
  · exact (c7_component_logger_amended c7WitHeap 0 "GORM" _ _ (by decide)
      (by decide) rfl).1
  · exact (c7_component_logger_amended c7WitHeap 0 "GORM" _ _ (by decide)
      (by decide) rfl).2.2.1 (by decide)
  · exact (c7_component_logger_amended c7WitHeap 0 "GORM" _ _ (by decide)
      (by decide) rfl).2.2.2

end LoggerPkg

end GoUtilities
